import Mathlib

/-!
Verification of the Conky-maker formatter (src/conky.py).

Strings are modelled as lists of characters (`List Char`); Python string
formatting (`%s`, `%d`, f-strings) is modelled by explicit concatenation.
Optional Python values are modelled with `Option`.  The module-level regular
expression

  FONT_COLOR_REGEX = re.compile(r'[$]([{]?)(color|font)([^{]*[}]|\b)')

is modelled by an executable scanner (`tryMatch` / `scan`) that reproduces the
regex engine's behaviour on this particular pattern: at each position, after
the literal dollar sign, an optional open brace and the literal name
`color`/`font`, the third group is either the longest run of non-open-brace
characters ending at its last close brace (the greedy first alternative), or
the empty string when a word boundary follows (the second alternative);
`finditer` scans left to right and resumes after each match.  The word-class
check is modelled for the ASCII range (letters, digits, underscore).
-/

namespace ConkyMaker

/-- Conversion of a Python integer to its decimal string, as `'%d' % n`. -/
def intStr (n : Int) : List Char := (toString n).toList

/-- Python `'%s' %% value` for an `Optional[str]` value: `None` renders as
the literal string `None`. -/
def pyStr (o : Option (List Char)) : List Char :=
  match o with
  | some s => s
  | none => ("None").toList

/-- Kind of a style macro matched by FONT_COLOR_REGEX: group 2 of the regex,
either `color` or `font`. -/
inductive FCKind where
  | color : FCKind
  | font : FCKind
deriving DecidableEq, Repr

/-- ASCII fragment of Python's regex word class `\w` (letters, digits,
underscore), used for the word-boundary alternative of group 3. -/
def isWordChar (c : Char) : Bool := c.isAlphanum || c == '_'

/-- Character class `[^{]` of group 3. -/
def notOpenBrace (c : Char) : Bool := c ≠ '\x7b'

/-- Negation of the character class `[}]` closing group 3. -/
def notCloseBrace (c : Char) : Bool := c ≠ '\x7d'

/-- Greedy matching of the regex fragment `[^{]*[}]` on an input already
restricted to contain no open brace: the prefix of `run` up to and including
its last close brace, or `none` when `run` contains no close brace. -/
def lastBrace (run : List Char) : Option (List Char) :=
  match run.reverse.dropWhile notCloseBrace with
  | [] => none
  | l => some l.reverse

/-- Matching of a literal character sequence `p` at the head of `l`,
returning the rest of `l` on success. -/
def dropLit : List Char → List Char → Option (List Char)
  | [], l => some l
  | _ :: _, [] => none
  | p :: ps, c :: cs => if c = p then dropLit ps cs else none

/-- Characters of the literal alternative `color` in group 2. -/
def colorName : List Char := ['c', 'o', 'l', 'o', 'r']

/-- Characters of the literal alternative `font` in group 2. -/
def fontName : List Char := ['f', 'o', 'n', 't']

/-- Matching of group 2 of FONT_COLOR_REGEX (`color|font`, the first
alternative tried first) at the head of `l`. -/
def matchName (l : List Char) : Option (FCKind × List Char) :=
  match dropLit colorName l with
  | some rest => some (FCKind.color, rest)
  | none =>
    match dropLit fontName l with
    | some rest => some (FCKind.font, rest)
    | none => none

/-- Matching of group 3 of FONT_COLOR_REGEX (`[^{]*[}]|\b`) at the head of
`l`: first the greedy brace alternative, else the word boundary (which holds
exactly when `l` is empty or starts with a non-word character, the preceding
character being the final word character of `color`/`font`).  Returns the
text of group 3 and the rest of the input. -/
def matchGroup3 (l : List Char) : Option (List Char × List Char) :=
  match lastBrace (l.takeWhile notOpenBrace) with
  | some g3 => some (g3, l.drop g3.length)
  | none =>
    match l with
    | [] => some ([], [])
    | c :: _ => if isWordChar c then none else some ([], l)

/-- Matching of the whole FONT_COLOR_REGEX at the head of `l`: the literal
dollar sign, the optional open brace of group 1, group 2 and group 3.
Returns the kind, the text of group 3, and the rest of the input after the
match. -/
def tryMatch (l : List Char) : Option (FCKind × List Char × List Char) :=
  match l with
  | [] => none
  | a :: l1 =>
    if a = '$' then
      let l2 := if l1.head? = some '\x7b' then l1.tail else l1
      match matchName l2 with
      | some (k, l3) =>
        match matchGroup3 l3 with
        | some (g3, after) => some (k, g3, after)
        | none => none
      | none => none
    else none

/-- Fuel-indexed driver of `re.finditer`: attempt a match at each position
from left to right, resuming after the end of each match.  The fuel bounds
the number of steps; `scan` instantiates it with the length of the input,
which suffices because every step consumes at least one character. -/
def scanF : Nat → List Char → List (FCKind × List Char)
  | 0, _ => []
  | _, [] => []
  | fuel + 1, c :: rest =>
    match tryMatch (c :: rest) with
    | some (k, g3, after) => (k, g3) :: scanF fuel after
    | none => scanF fuel rest

/-- All matches of FONT_COLOR_REGEX in `l`, in order, as produced by
`re.finditer`: for each match its kind (group 2) and the text of group 3. -/
def scan (l : List Char) : List (FCKind × List Char) := scanF l.length l

/-- Openness test of the source line 651/653: group 3 `not in ('', '}')`. -/
def isOpen (g3 : List Char) : Bool := !(g3 = [] || g3 = ['\x7d'])

/-- One step of the loop body of `ConkyFormatter.line`: update the pair
`(changed_color, changed_font)` according to one regex match. -/
def updFlags (st : Bool × Bool) (m : FCKind × List Char) : Bool × Bool :=
  match m.1 with
  | FCKind.color => (isOpen m.2, st.2)
  | FCKind.font => (st.1, isOpen m.2)

/-- State of `(changed_color, changed_font)` after the two nested loops of
`ConkyFormatter.line` over all parts and all matches within each part. -/
def lineFlags (parts : List (List Char)) : Bool × Bool :=
  parts.foldl (fun st part => (scan part).foldl updFlags st) (false, false)

/-- Close-color macro appended by `ConkyFormatter.line`. -/
def closeColor : List Char := ("$\x7bcolor\x7d").toList

/-- Close-font macro appended by `ConkyFormatter.line`. -/
def closeFont : List Char := ("$\x7bfont\x7d").toList

/-- Model of `ConkyFormatter.line`: join the parts, appending the
close-color macro when the last color macro seen was open, then the
close-font macro when the last font macro seen was open. -/
def line (parts : List (List Char)) : List Char :=
  let st := lineFlags parts
  (parts ++ (if st.1 then [closeColor] else []) ++
    (if st.2 then [closeFont] else [])).flatten

example : scan (("$\x7bcolor\x7d").toList) = [(FCKind.color, ['\x7d'])] := by decide
example : scan (("$\x7bcolor #ff0000\x7d").toList) =
    [(FCKind.color, (" #ff0000\x7d").toList)] := by decide
example : scan (("$\x7bcolor").toList) = [(FCKind.color, [])] := by decide
example : scan (("$alignc").toList) = [] := by decide
example : line [("$\x7bcolor #aa\x7d").toList, ("x").toList] =
    ("$\x7bcolor #aa\x7dx$\x7bcolor\x7d").toList := by decide
example : line [("$\x7bcolor").toList, (" #ff0000\x7d").toList] =
    ("$\x7bcolor #ff0000\x7d").toList := by decide
example : line [("$\x7bcolor #ff0000\x7d").toList] =
    ("$\x7bcolor #ff0000\x7d$\x7bcolor\x7d").toList := by decide

/-- Argument of `ConkyFormatter.color`: Python `Union[str, int]`. -/
inductive ColorArg where
  | str : List Char → ColorArg
  | num : Int → ColorArg
deriving DecidableEq, Repr

/-- Model of `ConkyFormatter.color`: close macro for `None`, indexed form for
an integer, explicit-hex form for a string. -/
def color (spec : Option ColorArg) : List Char :=
  match spec with
  | none => ("$\x7bcolor\x7d").toList
  | some (ColorArg.num n) => ("$\x7bcolor").toList ++ intStr n ++ ['\x7d']
  | some (ColorArg.str s) => ("$\x7bcolor #").toList ++ s ++ ['\x7d']

/-- Model of `ConkyFormatter.font`. -/
def font (spec : Option (List Char)) : List Char :=
  match spec with
  | none => ("$\x7bfont\x7d").toList
  | some s => ("$\x7bfont ").toList ++ s ++ ['\x7d']

/-- Model of `ConkyFormatter.text`: `str(value)`, the identity on strings. -/
def text (value : List Char) : List Char := value

/-- Model of `ConkyFormatter.center`. -/
def center : List Char := ("$alignc").toList

/-- Model of `ConkyFormatter.right`. -/
def right : List Char := ("$alignr").toList

/-- Model of `ConkyFormatter.time`. -/
def timeOf (time_format : List Char) : List Char :=
  ("$\x7btime ").toList ++ time_format ++ ['\x7d']

/-- Model of `ConkyFormatter.horizontal_rule`. -/
def horizontal_rule : List Char := ("$hr").toList

/-- Truthiness of a Python `Optional[int]`: `None` and `0` are falsy. -/
def intTruthy (o : Option Int) : Bool :=
  match o with
  | some n => n ≠ 0
  | none => false

/-- Model of `ConkyFormatter.offset`: the horizontal part then the vertical
part, each emitted only when its argument is truthy. -/
def offset (x y : Option Int) : List Char :=
  (if intTruthy x then ("$\x7boffset ").toList ++ intStr (x.getD 0) ++ ['\x7d']
    else []) ++
  (if intTruthy y then ("$\x7bvoffset ").toList ++ intStr (y.getD 0) ++ ['\x7d']
    else [])

/-- Model of `ConkyFormatter.exec`: throttled form when an interval is
provided (any interval, including 0), plain form when it is omitted. -/
def exec (command : List Char) (interval : Option Int) : List Char :=
  match interval with
  | some n => ("$\x7bexeci ").toList ++ intStr n ++ [' '] ++ command ++ ['\x7d']
  | none => ("$\x7bexec ").toList ++ command ++ ['\x7d']

/-- Optional-parameter fragment `f' {param}' if param else ''` of `meter`
and `bar`: a Python string is falsy when it is empty. -/
def optPart (param : Option (List Char)) : List Char :=
  match param with
  | some p => if p = [] then [] else ' ' :: p
  | none => []

/-- Flat record of `ConkyFormatterParameters` (all fields default `None`). -/
structure ConkyFormatterParameters where
  placement : Option (List Char) := none
  color_default : Option (List Char) := none
  color_outline : Option (List Char) := none
  color_graph_border : Option (List Char) := none
  color_heading : Option (List Char) := none
  color_label : Option (List Char) := none
  color_data : Option (List Char) := none
  color_time : Option (List Char) := none
  color_date : Option (List Char) := none
  color_cpu : Option (List Char) := none
  color_memory : Option (List Char) := none
  color_filesystem : Option (List Char) := none
  font_default : Option (List Char) := none
  font_heading : Option (List Char) := none
  font_label : Option (List Char) := none
  font_data : Option (List Char) := none
  font_time : Option (List Char) := none
  font_date : Option (List Char) := none
  format_time : Option (List Char) := none
  format_date : Option (List Char) := none
  meter_width : Option Int := none
  meter_height : Option Int := none
  bar_width : Option Int := none
  bar_height : Option Int := none
  interval_refresh : Option Int := none
  interval_network_check : Option Int := none
  interval_temperature_check : Option Int := none
  window_width_min : Option Int := none
  window_height_min : Option Int := none
  window_outer_margin : Option Int := none
  window_gap : Option Int := none
deriving DecidableEq, Repr

/-- Record with every field absent: `ConkyFormatterParameters()`. -/
def blankParameters : ConkyFormatterParameters := {}

/-- Model of DEFAULT_FORMATTER_PARAMETERS. -/
def defaultParameters : ConkyFormatterParameters where
  placement := some (("top_left").toList)
  color_default := some (("000000").toList)
  color_outline := some (("808080").toList)
  color_graph_border := some (("808080").toList)
  color_heading := some (("000000").toList)
  color_label := some (("000000").toList)
  color_data := some (("000000").toList)
  color_time := some (("000000").toList)
  color_date := some (("000000").toList)
  color_cpu := some (("000000").toList)
  color_memory := some (("000000").toList)
  color_filesystem := some (("000000").toList)
  font_default := some (("FreeSans:size=10").toList)
  font_heading := some (("FreeSans:size=11").toList)
  font_label := some (("FreeSans:size=9").toList)
  font_data := some (("FreeMono-Bold:size=9").toList)
  font_time := some (("FreeMono-Bold:size=44").toList)
  font_date := some (("FreeSans:size=14").toList)
  format_time := some (("%H:%M").toList)
  format_date := some (("%c").toList)
  meter_width := some 100
  meter_height := some 30
  bar_width := some 100
  bar_height := some 10
  interval_refresh := some 1
  interval_network_check := some 3600
  interval_temperature_check := some 600
  window_width_min := some 200
  window_height_min := some 500
  window_outer_margin := some 20
  window_gap := some 20

/-- Per-field update of `ConkyFormatter.set_parameters`: replace the live
value only when the override value is not `None`. -/
def updField {α : Type} (override live : Option α) : Option α :=
  match override with
  | some v => some v
  | none => live

/-- Model of `ConkyFormatter.set_parameters`: field-by-field selective
override of the live record by the non-`None` fields of `p`. -/
def set_parameters (live p : ConkyFormatterParameters) :
    ConkyFormatterParameters where
  placement := updField p.placement live.placement
  color_default := updField p.color_default live.color_default
  color_outline := updField p.color_outline live.color_outline
  color_graph_border := updField p.color_graph_border live.color_graph_border
  color_heading := updField p.color_heading live.color_heading
  color_label := updField p.color_label live.color_label
  color_data := updField p.color_data live.color_data
  color_time := updField p.color_time live.color_time
  color_date := updField p.color_date live.color_date
  color_cpu := updField p.color_cpu live.color_cpu
  color_memory := updField p.color_memory live.color_memory
  color_filesystem := updField p.color_filesystem live.color_filesystem
  font_default := updField p.font_default live.font_default
  font_heading := updField p.font_heading live.font_heading
  font_label := updField p.font_label live.font_label
  font_data := updField p.font_data live.font_data
  font_time := updField p.font_time live.font_time
  font_date := updField p.font_date live.font_date
  format_time := updField p.format_time live.format_time
  format_date := updField p.format_date live.format_date
  meter_width := updField p.meter_width live.meter_width
  meter_height := updField p.meter_height live.meter_height
  bar_width := updField p.bar_width live.bar_width
  bar_height := updField p.bar_height live.bar_height
  interval_refresh := updField p.interval_refresh live.interval_refresh
  interval_network_check :=
    updField p.interval_network_check live.interval_network_check
  interval_temperature_check :=
    updField p.interval_temperature_check live.interval_temperature_check
  window_width_min := updField p.window_width_min live.window_width_min
  window_height_min := updField p.window_height_min live.window_height_min
  window_outer_margin := updField p.window_outer_margin live.window_outer_margin
  window_gap := updField p.window_gap live.window_gap

/-- Model of `ConkyFormatter.meter`: the border-color macro built from the
`color_graph_border` parameter, then the graph macro with the optional
parameter, `height,width`, and the single color argument used twice. -/
def meter (p : ConkyFormatterParameters) (graph_type c : List Char)
    (width height : Int) (param : Option (List Char)) : List Char :=
  ("$\x7bcolor #").toList ++ pyStr p.color_graph_border ++
    ("\x7d$\x7b").toList ++ graph_type ++ optPart param ++ [' '] ++
    intStr height ++ [','] ++ intStr width ++ [' '] ++ c ++ [' '] ++ c ++
    ['\x7d']

/-- Model of `ConkyFormatter.bar`: the color-set macro built from the color
argument, then the bar macro with `height,width` and the optional
parameter. -/
def bar (bar_type c : List Char) (width height : Int)
    (param : Option (List Char)) : List Char :=
  ("$\x7bcolor #").toList ++ c ++ ("\x7d$\x7b").toList ++ bar_type ++
    [' '] ++ intStr height ++ [','] ++ intStr width ++ optPart param ++
    ['\x7d']

/-- Conversion of an `Optional[int]` parameter that the source passes where
an `int` is expected (`%d` would raise on `None`; after construction every
parameter is populated, so the `None` branch is unreachable in the
program). -/
def pyInt (o : Option Int) : Int := o.getD 0

/-- Model of `ConkyFormatter.host_name`. -/
def host_name : List Char := ("$nodename").toList

/-- Model of `ConkyFormatter.kernel`. -/
def kernel : List Char := ("$kernel").toList

/-- Model of `ConkyFormatter.uptime`. -/
def uptime (short : Bool) : List Char :=
  if short then ("$uptime_short").toList else ("$uptime").toList

/-- Model of `ConkyFormatter.ip_address`. -/
def ip_address (device : List Char) : List Char :=
  ("$\x7baddr ").toList ++ device ++ ['\x7d']

/-- Model of `ConkyFormatter.mac_address`: the `ip addr`/`awk` pipeline fed
to `exec`, throttled by the `interval_network_check` parameter. -/
def mac_address (p : ConkyFormatterParameters) (device : List Char) :
    List Char :=
  exec (("ip addr show dev ").toList ++ device ++
      (" | awk '/link\\/ether/\x7bprint $2\x7d'").toList)
    p.interval_network_check

/-- Model of EXTERNAL_IP_COMMAND, parameterized by the expansion of `~`
(the cache path is the home directory followed by `/.external_ip`). -/
def externalIpCommand (home : List Char) : List Char :=
  let path := home ++ ("/.external_ip").toList
  ("[ $(( $(date +%s) - $(test -f ").toList ++ path ++
    (" && date -r ").toList ++ path ++
    (" +%s || echo 0) )) -gt 14400 ] && \x7b curl -s https://ifconfig.me/ | tee ").toList ++
    path ++ ("; \x7d || cat ").toList ++ path

/-- Model of `ConkyFormatter.external_ip`, parameterized by the home
directory used by the module-level EXTERNAL_IP_COMMAND. -/
def external_ip (home : List Char) (p : ConkyFormatterParameters) :
    List Char :=
  exec (("bash -c \"").toList ++ externalIpCommand home ++ ['"'])
    p.interval_network_check

/-- Model of `ConkyFormatter.cpu_percent`. -/
def cpu_percent (cpu_number : Int) : List Char :=
  ("$\x7bcpu cpu ").toList ++ intStr cpu_number ++ ("\x7d%").toList

/-- Model of `ConkyFormatter.cpu_temperature`: a `sensors`/`awk` pipeline
fed to `exec`, throttled by `interval_temperature_check`, with ` C`
appended. -/
def cpu_temperature (p : ConkyFormatterParameters) (cpu_number : Int) :
    List Char :=
  let search := if cpu_number = 0 then ("Package id 0:").toList
    else ("Core ").toList ++ intStr cpu_number ++ [':']
  let fieldNumber : Int := if cpu_number = 0 then 4 else 3
  exec (("sensors | awk '/").toList ++ search ++
      ("/\x7bprint int($").toList ++ intStr fieldNumber ++ (")\x7d'").toList)
    p.interval_temperature_check ++ (" C").toList

/-- Model of `ConkyFormatter.cpu_frequency`. -/
def cpu_frequency : List Char := ("$freq_g GHz").toList

/-- Model of `ConkyFormatter.cpu_top_name`. -/
def cpu_top_name (top_number : Int) : List Char :=
  ("$\x7btop name ").toList ++ intStr top_number ++ ['\x7d']

/-- Model of `ConkyFormatter.cpu_top_percent`. -/
def cpu_top_percent (top_number : Int) : List Char :=
  ("$\x7btop cpu ").toList ++ intStr top_number ++ ("\x7d%").toList

/-- Model of `ConkyFormatter.cpu_meter`: delegation to `meter` with the
`color_cpu`, `meter_width` and `meter_height` parameters. -/
def cpu_meter (p : ConkyFormatterParameters) (cpu_number : Int) : List Char :=
  meter p (("cpugraph").toList) (pyStr p.color_cpu) (pyInt p.meter_width)
    (pyInt p.meter_height) (some (("cpu").toList ++ intStr cpu_number))

/-- Model of `ConkyFormatter.memory_usage`. -/
def memory_usage : List Char := ("$mem / $memmax / $memperc%").toList

/-- Model of `ConkyFormatter.memory_top_name`. -/
def memory_top_name (top_number : Int) : List Char :=
  ("$\x7btop_mem name ").toList ++ intStr top_number ++ ['\x7d']

/-- Model of `ConkyFormatter.memory_top_percent`. -/
def memory_top_percent (top_number : Int) : List Char :=
  ("$\x7btop_mem mem ").toList ++ intStr top_number ++ ("\x7d%").toList

/-- Model of `ConkyFormatter.memory_bar`: delegation to `bar` with the
`color_memory`, `bar_width` and `bar_height` parameters. -/
def memory_bar (p : ConkyFormatterParameters) : List Char :=
  bar (("membar").toList) (pyStr p.color_memory) (pyInt p.bar_width)
    (pyInt p.bar_height) none

/-- Model of `ConkyFormatter.swap_usage`. -/
def swap_usage : List Char := ("$swap / $swapmax / $swapperc%").toList

/-- Model of `ConkyFormatter.filesystem_usage`. -/
def filesystem_usage (mountpoint : List Char) : List Char :=
  ("$\x7bfs_used ").toList ++ mountpoint ++ ("\x7d / $\x7bfs_size ").toList ++
    mountpoint ++ ("\x7d / $\x7bfs_used_perc ").toList ++ mountpoint ++
    ("\x7d%").toList

/-- Model of `ConkyFormatter.filesystem_io`. -/
def filesystem_io (mountpoint : List Char) : List Char :=
  ("$\x7bdiskio ").toList ++ mountpoint ++ ['\x7d']

/-- Model of `ConkyFormatter.filesystem_bar`: delegation to `bar` with the
`color_filesystem`, `bar_width` and `bar_height` parameters. -/
def filesystem_bar (p : ConkyFormatterParameters) (mountpoint : List Char) :
    List Char :=
  bar (("fs_bar").toList) (pyStr p.color_filesystem) (pyInt p.bar_width)
    (pyInt p.bar_height) (some mountpoint)

/-- Model of `ConkyFormatter.filesystem_io_meter`: delegation to `meter`
with the `color_filesystem`, `meter_width` and `meter_height` parameters. -/
def filesystem_io_meter (p : ConkyFormatterParameters) (device : List Char) :
    List Char :=
  meter p (("diskiograph").toList) (pyStr p.color_filesystem)
    (pyInt p.meter_width) (pyInt p.meter_height) (some device)

/-- Model of `ConkyFormatter.time_line`. -/
def time_line (p : ConkyFormatterParameters) : List Char :=
  line [color (p.color_time.map ColorArg.str), font p.font_time, center,
    timeOf (pyStr p.format_time)]

/-- Model of `ConkyFormatter.date_line` (the source wraps `format_date` in
`str(...)`, hence `pyStr`). -/
def date_line (p : ConkyFormatterParameters) : List Char :=
  line [color (p.color_date.map ColorArg.str), font p.font_date, center,
    timeOf (pyStr p.format_date)]

/-- Model of `ConkyFormatter.heading_line`: themed color and font, the
heading text with a trailing space, then a horizontal rule, joined by
`line`. -/
def heading_line (p : ConkyFormatterParameters) (heading_text : List Char) :
    List Char :=
  line [color (p.color_heading.map ColorArg.str), font p.font_heading,
    text (heading_text ++ [' ']), horizontal_rule]

/-- Model of `ConkyFormatter.name_value_line`. -/
def name_value_line (p : ConkyFormatterParameters) (name value : List Char) :
    List Char :=
  line [color (p.color_label.map ColorArg.str), font p.font_label, text name,
    color (p.color_data.map ColorArg.str), font p.font_data, right,
    text value]

/-- Model of `ConkyFormatter.pair_line`. -/
def pair_line (p : ConkyFormatterParameters) (value1 value2 : List Char) :
    List Char :=
  line [color (p.color_data.map ColorArg.str), font p.font_data, text value1,
    right, text value2]

/-- Model of `ConkyFormatter.triplet_line`. -/
def triplet_line (p : ConkyFormatterParameters)
    (value1 value2 value3 : List Char) : List Char :=
  line [color (p.color_data.map ColorArg.str), font p.font_data, text value1,
    center, text value2, right, text value3]

/-- Model of `ConkyFormatter.centered_line`. -/
def centered_line (item : List Char) : List Char :=
  line [center, text item]

/-- Nested string hierarchy of the LinesTree type. -/
inductive LinesTree where
  | leaf : List Char → LinesTree
  | node : List LinesTree → LinesTree

mutual

/-- Model of `flatten_strings` on one item. -/
def flatten_strings : LinesTree → List (List Char)
  | LinesTree.leaf s => [s]
  | LinesTree.node items => flattenList items

/-- Model of `flatten_strings` iterating over the items of a sequence. -/
def flattenList : List LinesTree → List (List Char)
  | [] => []
  | t :: ts => flatten_strings t ++ flattenList ts

end

/-- Lines contributed by one `block` call beyond the separator: the heading
line (when a heading is given) followed by each flattened input line, each
run through `line`. -/
def renderNew (p : ConkyFormatterParameters) (lines : List LinesTree)
    (heading : Option (List Char)) : List (List Char) :=
  (match heading with
    | some h => [line [heading_line p h]]
    | none => []) ++
  (flattenList lines).map (fun s => line [s])

/-- Model of `ConkyFormatter.block` as a buffer transformer: append a blank
separator when the buffer is nonempty, append the heading line and the
flattened lines, then prefix the vertical-offset macro onto the line at the
recorded first index when `vertical_offset` is truthy; when that index is
out of range the source raises IndexError, modelled by `Except.error`. -/
def block (p : ConkyFormatterParameters) (buf : List (List Char))
    (lines : List LinesTree) (heading : Option (List Char))
    (vertical_offset : Option Int) : Except Unit (List (List Char)) :=
  let buf1 := if buf = [] then buf else buf ++ [[]]
  let firstLineIndex := buf1.length
  let buf2 := buf1 ++ renderNew p lines heading
  if intTruthy vertical_offset then
    match buf2.get? firstLineIndex with
    | some first =>
      Except.ok (buf2.set firstLineIndex (offset none vertical_offset ++ first))
    | none => Except.error ()
  else
    Except.ok buf2

/-- Arguments of one `block` call. -/
structure BlockCall where
  lines : List LinesTree
  heading : Option (List Char)
  vertical_offset : Option Int

/-- Sequential application of a list of `block` calls to a buffer. -/
def applyBlocks (p : ConkyFormatterParameters) (buf : List (List Char)) :
    List BlockCall → Except Unit (List (List Char))
  | [] => Except.ok buf
  | c :: cs =>
    match block p buf c.lines c.heading c.vertical_offset with
    | Except.ok buf2 => applyBlocks p buf2 cs
    | Except.error e => Except.error e

/-- Lines contributed by one successful `block` call beyond the separator,
with the vertical-offset prefix applied to the first line when truthy. -/
def renderBlock (p : ConkyFormatterParameters) (c : BlockCall) :
    List (List Char) :=
  let ls := renderNew p c.lines c.heading
  if intTruthy c.vertical_offset then
    ls.modifyHead (fun l0 => offset none c.vertical_offset ++ l0)
  else ls

/-- Values held in a parsed YAML/JSON configuration tree handled by
`ConfigDict`: scalars, `None`, mappings and sequences. -/
inductive CValue where
  | null : CValue
  | bool : Bool → CValue
  | int : Int → CValue
  | str : List Char → CValue
  | dict : List (List Char × CValue) → CValue
  | list : List CValue → CValue

mutual

/-- Model of `ConfigDict._wrap_data`: a mapping is wrapped as a
`ConfigDict` with the same entries, a sequence is wrapped element-wise, and
every other value (including `None`) passes through unchanged.  Wrapping
preserves the structure of the data. -/
def wrap_data : CValue → CValue
  | CValue.dict es => CValue.dict es
  | CValue.list es => CValue.list (wrapList es)
  | v => v

/-- Element-wise wrapping of a sequence by `_wrap_data`. -/
def wrapList : List CValue → List CValue
  | [] => []
  | v :: vs => wrap_data v :: wrapList vs

end

/-- Model of `ConfigDict.__getattr__`: `self._wrap_data(self.get(name))`,
where `dict.get` yields `None` for an absent key. -/
def configGetAttr (entries : List (List Char × CValue)) (name : List Char) :
    CValue :=
  wrap_data ((entries.lookup name).getD CValue.null)

/-- Model of `ConfigDict.__getitem__`, which has the same body as
`__getattr__`. -/
def configGetItem (entries : List (List Char × CValue)) (name : List Char) :
    CValue :=
  wrap_data ((entries.lookup name).getD CValue.null)

/-- Attribute access on an arbitrary wrapped value, as the Python runtime
resolves it: on a wrapped mapping it goes through `__getattr__`; on `None`
(and on any non-mapping) it raises AttributeError, modelled by
`Except.error`. -/
def chainGetAttr (v : CValue) (name : List Char) : Except (List Char) CValue :=
  match v with
  | CValue.dict es => Except.ok (configGetAttr es name)
  | _ => Except.error (("AttributeError").toList)

/-- Observable state of a `ConkyFormatter` instance: the live parameter
record and the accumulated line buffer. -/
structure FormatterState where
  parameters : ConkyFormatterParameters
  conky_text_lines : List (List Char)

/-- State-passing form of `ConkyFormatter.text`. -/
def textOp (st : FormatterState) (value : List Char) :
    FormatterState × List Char := (st, text value)

/-- State-passing form of `ConkyFormatter.color`. -/
def colorOp (st : FormatterState) (spec : Option ColorArg) :
    FormatterState × List Char := (st, color spec)

/-- State-passing form of `ConkyFormatter.font`. -/
def fontOp (st : FormatterState) (spec : Option (List Char)) :
    FormatterState × List Char := (st, font spec)

/-- State-passing form of `ConkyFormatter.center`. -/
def centerOp (st : FormatterState) : FormatterState × List Char :=
  (st, center)

/-- State-passing form of `ConkyFormatter.right`. -/
def rightOp (st : FormatterState) : FormatterState × List Char :=
  (st, right)

/-- State-passing form of `ConkyFormatter.time`. -/
def timeOp (st : FormatterState) (time_format : List Char) :
    FormatterState × List Char := (st, timeOf time_format)

/-- State-passing form of `ConkyFormatter.horizontal_rule`. -/
def horizontalRuleOp (st : FormatterState) : FormatterState × List Char :=
  (st, horizontal_rule)

/-- State-passing form of `ConkyFormatter.offset`. -/
def offsetOp (st : FormatterState) (x y : Option Int) :
    FormatterState × List Char := (st, offset x y)

/-- State-passing form of `ConkyFormatter.exec`. -/
def execOp (st : FormatterState) (command : List Char)
    (interval : Option Int) : FormatterState × List Char :=
  (st, exec command interval)

/-- State-passing form of `ConkyFormatter.bar`. -/
def barOp (st : FormatterState) (bar_type c : List Char)
    (width height : Int) (param : Option (List Char)) :
    FormatterState × List Char := (st, bar bar_type c width height param)

/-- State-passing form of `ConkyFormatter.meter` (reads the live
parameters for the graph border color). -/
def meterOp (st : FormatterState) (graph_type c : List Char)
    (width height : Int) (param : Option (List Char)) :
    FormatterState × List Char :=
  (st, meter st.parameters graph_type c width height param)

/-- State-passing form of `ConkyFormatter.host_name`. -/
def hostNameOp (st : FormatterState) : FormatterState × List Char :=
  (st, host_name)

/-- State-passing form of `ConkyFormatter.kernel`. -/
def kernelOp (st : FormatterState) : FormatterState × List Char :=
  (st, kernel)

/-- State-passing form of `ConkyFormatter.uptime`. -/
def uptimeOp (st : FormatterState) (short : Bool) :
    FormatterState × List Char := (st, uptime short)

/-- State-passing form of `ConkyFormatter.ip_address`. -/
def ipAddressOp (st : FormatterState) (device : List Char) :
    FormatterState × List Char := (st, ip_address device)

/-- State-passing form of `ConkyFormatter.mac_address`. -/
def macAddressOp (st : FormatterState) (device : List Char) :
    FormatterState × List Char := (st, mac_address st.parameters device)

/-- State-passing form of `ConkyFormatter.external_ip`. -/
def externalIpOp (home : List Char) (st : FormatterState) :
    FormatterState × List Char := (st, external_ip home st.parameters)

/-- State-passing form of `ConkyFormatter.cpu_percent`. -/
def cpuPercentOp (st : FormatterState) (cpu_number : Int) :
    FormatterState × List Char := (st, cpu_percent cpu_number)

/-- State-passing form of `ConkyFormatter.cpu_temperature`. -/
def cpuTemperatureOp (st : FormatterState) (cpu_number : Int) :
    FormatterState × List Char := (st, cpu_temperature st.parameters cpu_number)

/-- State-passing form of `ConkyFormatter.cpu_frequency`. -/
def cpuFrequencyOp (st : FormatterState) : FormatterState × List Char :=
  (st, cpu_frequency)

/-- State-passing form of `ConkyFormatter.cpu_top_name`. -/
def cpuTopNameOp (st : FormatterState) (top_number : Int) :
    FormatterState × List Char := (st, cpu_top_name top_number)

/-- State-passing form of `ConkyFormatter.cpu_top_percent`. -/
def cpuTopPercentOp (st : FormatterState) (top_number : Int) :
    FormatterState × List Char := (st, cpu_top_percent top_number)

/-- State-passing form of `ConkyFormatter.cpu_meter`. -/
def cpuMeterOp (st : FormatterState) (cpu_number : Int) :
    FormatterState × List Char := (st, cpu_meter st.parameters cpu_number)

/-- State-passing form of `ConkyFormatter.memory_usage`. -/
def memoryUsageOp (st : FormatterState) : FormatterState × List Char :=
  (st, memory_usage)

/-- State-passing form of `ConkyFormatter.memory_top_name`. -/
def memoryTopNameOp (st : FormatterState) (top_number : Int) :
    FormatterState × List Char := (st, memory_top_name top_number)

/-- State-passing form of `ConkyFormatter.memory_top_percent`. -/
def memoryTopPercentOp (st : FormatterState) (top_number : Int) :
    FormatterState × List Char := (st, memory_top_percent top_number)

/-- State-passing form of `ConkyFormatter.memory_bar`. -/
def memoryBarOp (st : FormatterState) : FormatterState × List Char :=
  (st, memory_bar st.parameters)

/-- State-passing form of `ConkyFormatter.swap_usage`. -/
def swapUsageOp (st : FormatterState) : FormatterState × List Char :=
  (st, swap_usage)

/-- State-passing form of `ConkyFormatter.filesystem_usage`. -/
def filesystemUsageOp (st : FormatterState) (mountpoint : List Char) :
    FormatterState × List Char := (st, filesystem_usage mountpoint)

/-- State-passing form of `ConkyFormatter.filesystem_io`. -/
def filesystemIoOp (st : FormatterState) (mountpoint : List Char) :
    FormatterState × List Char := (st, filesystem_io mountpoint)

/-- State-passing form of `ConkyFormatter.filesystem_bar`. -/
def filesystemBarOp (st : FormatterState) (mountpoint : List Char) :
    FormatterState × List Char := (st, filesystem_bar st.parameters mountpoint)

/-- State-passing form of `ConkyFormatter.filesystem_io_meter`. -/
def filesystemIoMeterOp (st : FormatterState) (device : List Char) :
    FormatterState × List Char :=
  (st, filesystem_io_meter st.parameters device)

/-- State-passing form of `ConkyFormatter.line`. -/
def lineOp (st : FormatterState) (parts : List (List Char)) :
    FormatterState × List Char := (st, line parts)

/-- State-passing form of `ConkyFormatter.time_line`. -/
def timeLineOp (st : FormatterState) : FormatterState × List Char :=
  (st, time_line st.parameters)

/-- State-passing form of `ConkyFormatter.date_line`. -/
def dateLineOp (st : FormatterState) : FormatterState × List Char :=
  (st, date_line st.parameters)

/-- State-passing form of `ConkyFormatter.heading_line`. -/
def headingLineOp (st : FormatterState) (heading_text : List Char) :
    FormatterState × List Char := (st, heading_line st.parameters heading_text)

/-- State-passing form of `ConkyFormatter.name_value_line`. -/
def nameValueLineOp (st : FormatterState) (name value : List Char) :
    FormatterState × List Char := (st, name_value_line st.parameters name value)

/-- State-passing form of `ConkyFormatter.pair_line`. -/
def pairLineOp (st : FormatterState) (value1 value2 : List Char) :
    FormatterState × List Char := (st, pair_line st.parameters value1 value2)

/-- State-passing form of `ConkyFormatter.triplet_line`. -/
def tripletLineOp (st : FormatterState) (value1 value2 value3 : List Char) :
    FormatterState × List Char :=
  (st, triplet_line st.parameters value1 value2 value3)

/-- State-passing form of `ConkyFormatter.centered_line`. -/
def centeredLineOp (st : FormatterState) (item : List Char) :
    FormatterState × List Char := (st, centered_line item)

/-- State-passing form of `ConkyFormatter.block`: appends to the line
buffer, leaving the parameter record as `block` leaves it. -/
def blockOp (st : FormatterState) (lines : List LinesTree)
    (heading : Option (List Char)) (vertical_offset : Option Int) :
    Except Unit FormatterState :=
  (block st.parameters st.conky_text_lines lines heading
      vertical_offset).map
    (fun buf => { st with conky_text_lines := buf })

/-- State-passing form of `ConkyFormatter.set_parameters`: replaces the
parameter record, leaving the line buffer untouched. -/
def setParametersOp (st : FormatterState) (p : ConkyFormatterParameters) :
    FormatterState :=
  { st with parameters := set_parameters st.parameters p }

/-! Basic facts about the FONT_COLOR_REGEX scanner: length bounds for its
components, and unfolding equations for `scan` that hide the fuel. -/

theorem dropLit_length {p l r : List Char} (h : dropLit p l = some r) :
    r.length ≤ l.length := by
  induction p generalizing l with
  | nil =>
    simp only [dropLit, Option.some.injEq] at h
    simp [h]
  | cons a ps ih =>
    cases l with
    | nil => simp [dropLit] at h
    | cons b bs =>
      simp only [dropLit] at h
      split at h
      · exact le_trans (ih h) (by simp)
      · exact absurd h (by simp)

theorem matchName_length {l r : List Char} {k : FCKind}
    (h : matchName l = some (k, r)) : r.length ≤ l.length := by
  simp only [matchName] at h
  cases hc : dropLit colorName l with
  | some rest =>
    rw [hc] at h
    cases h
    exact dropLit_length hc
  | none =>
    rw [hc] at h
    cases hf : dropLit fontName l with
    | some rest =>
      rw [hf] at h
      cases h
      exact dropLit_length hf
    | none => rw [hf] at h; cases h

theorem lastBrace_length {run g3 : List Char} (h : lastBrace run = some g3) :
    g3.length ≤ run.length := by
  simp only [lastBrace] at h
  split at h
  · cases h
  · cases h
    have hd : (run.reverse.dropWhile notCloseBrace).length ≤
        run.reverse.length := (List.dropWhile_sublist notCloseBrace).length_le
    simpa using hd

theorem matchGroup3_length {l g3 after : List Char}
    (h : matchGroup3 l = some (g3, after)) : after.length ≤ l.length := by
  simp only [matchGroup3] at h
  split at h
  · cases h
    exact (List.drop_sublist _ _).length_le
  · split at h
    · cases h; simp
    · split at h
      · cases h
      · cases h; exact le_refl _

theorem tryMatch_length {l g3 after : List Char} {k : FCKind}
    (h : tryMatch l = some (k, g3, after)) : after.length < l.length := by
  cases l with
  | nil => simp [tryMatch] at h
  | cons a l1 =>
    have hlen2 : (if l1.head? = some '\x7b' then l1.tail else l1).length ≤
        l1.length := by
      split
      · exact (List.tail_sublist l1).length_le
      · exact le_refl _
    simp only [tryMatch] at h
    split at h
    · split at h
      · split at h
        · rename_i k0 l3 hn x0 g3a aftera hg
          cases h
          have h1 : after.length ≤ l3.length := matchGroup3_length hg
          have h2 : l3.length ≤ l1.length :=
            le_trans (matchName_length hn) hlen2
          simp only [List.length_cons]
          omega
        · cases h
      · cases h
    · cases h

theorem scanF_nil (f : Nat) : scanF f [] = [] := by
  cases f <;> rfl

theorem scanF_irrel : ∀ f1 f2 l, l.length ≤ f1 → l.length ≤ f2 →
    scanF f1 l = scanF f2 l := by
  intro f1
  induction f1 with
  | zero =>
    intro f2 l h1 _
    have : l = [] := List.eq_nil_of_length_eq_zero (Nat.le_zero.mp h1)
    subst this
    rw [scanF_nil, scanF_nil]
  | succ f ih =>
    intro f2 l h1 h2
    cases l with
    | nil => rw [scanF_nil, scanF_nil]
    | cons a l1 =>
      cases f2 with
      | zero => simp at h2
      | succ g =>
        cases h : tryMatch (a :: l1) with
        | some m =>
          obtain ⟨k, g3, after⟩ := m
          have hlt : after.length < l1.length + 1 := by
            have := tryMatch_length h
            simpa using this
          simp only [List.length_cons] at h1 h2
          simp only [scanF, h]
          rw [ih g after (by omega) (by omega)]
        | none =>
          simp only [List.length_cons] at h1 h2
          simp only [scanF, h]
          rw [ih g l1 (by omega) (by omega)]

theorem scan_cons_some {a : Char} {l1 g3 after : List Char} {k : FCKind}
    (h : tryMatch (a :: l1) = some (k, g3, after)) :
    scan (a :: l1) = (k, g3) :: scan after := by
  have hlt : after.length < l1.length + 1 := by
    have := tryMatch_length h
    simpa using this
  show scanF (a :: l1).length (a :: l1) = _
  simp only [List.length_cons, scanF, h]
  rw [scanF_irrel l1.length after.length after (by omega) (le_refl _)]
  rfl

theorem scan_cons_none {a : Char} {l1 : List Char}
    (h : tryMatch (a :: l1) = none) : scan (a :: l1) = scan l1 := by
  show scanF (a :: l1).length (a :: l1) = _
  simp only [List.length_cons, scanF, h]
  rfl

/-! Stability of the scanner under appending a suffix that starts with a
dollar sign followed by an open brace — the shape of the close macros
`${color}` and `${font}` appended by `line`.  Matches found in the prefix
are unchanged by the extension, so the matches of the extended string are
the matches of the prefix followed by the matches of the suffix. -/

theorem dropLit_append {p l r : List Char} (c : List Char)
    (h : dropLit p l = some r) : dropLit p (l ++ c) = some (r ++ c) := by
  induction p generalizing l with
  | nil =>
    simp only [dropLit, Option.some.injEq] at h
    subst h
    rfl
  | cons a ps ih =>
    cases l with
    | nil => simp [dropLit] at h
    | cons b bs =>
      simp only [dropLit] at h
      simp only [List.cons_append, dropLit]
      by_cases hb : b = a
      · rw [if_pos hb] at h ⊢
        exact ih h
      · rw [if_neg hb] at h
        cases h

theorem dropLit_append_none {p l : List Char} (c : List Char)
    (hp : '$' ∉ p) (h : dropLit p l = none) :
    dropLit p (l ++ '$' :: c) = none := by
  induction p generalizing l with
  | nil => simp [dropLit] at h
  | cons a ps ih =>
    cases l with
    | nil =>
      have ha : ('$' : Char) ≠ a := by
        intro he
        exact hp (by rw [he]; exact List.mem_cons_self a ps)
      simp only [List.nil_append, dropLit, if_neg ha]
    | cons b bs =>
      simp only [dropLit] at h
      simp only [List.cons_append, dropLit]
      by_cases hb : b = a
      · rw [if_pos hb] at h ⊢
        exact ih (fun hm => hp (List.mem_cons_of_mem a hm)) h
      · rw [if_neg hb]

theorem matchName_append {l r : List Char} {k : FCKind} (c : List Char)
    (h : matchName l = some (k, r)) :
    matchName (l ++ '$' :: c) = some (k, r ++ '$' :: c) := by
  simp only [matchName] at h ⊢
  cases hc : dropLit colorName l with
  | some rest =>
    simp only [hc, Option.some.injEq, Prod.mk.injEq] at h
    obtain ⟨hk, hr⟩ := h
    subst hk
    subst hr
    simp only [dropLit_append _ hc]
  | none =>
    simp only [hc] at h
    simp only [dropLit_append_none c (by decide) hc]
    cases hf : dropLit fontName l with
    | some rest =>
      simp only [hf, Option.some.injEq, Prod.mk.injEq] at h
      obtain ⟨hk, hr⟩ := h
      subst hk
      subst hr
      simp only [dropLit_append _ hf]
    | none => simp [hf] at h

theorem matchName_append_none {l : List Char} (c : List Char)
    (h : matchName l = none) : matchName (l ++ '$' :: c) = none := by
  simp only [matchName] at h ⊢
  cases hc : dropLit colorName l with
  | some rest => simp [hc] at h
  | none =>
    simp only [hc] at h
    simp only [dropLit_append_none c (by decide) hc]
    cases hf : dropLit fontName l with
    | some rest => simp [hf] at h
    | none => simp only [dropLit_append_none c (by decide) hf]

theorem takeWhile_append_of_mem {l : List Char} (d : List Char)
    (h : '\x7b' ∈ l) :
    (l ++ d).takeWhile notOpenBrace = l.takeWhile notOpenBrace := by
  induction l with
  | nil => cases h
  | cons a as ih =>
    by_cases ha : a = '\x7b'
    · subst ha
      simp [List.takeWhile_cons, notOpenBrace]
    · have h2 : '\x7b' ∈ as := by
        rcases List.mem_cons.mp h with he | hm
        · exact absurd he.symm ha
        · exact hm
      simp [List.takeWhile_cons, notOpenBrace, ha, ih h2]

theorem takeWhile_all_of_not_mem {l : List Char} (h : '\x7b' ∉ l) :
    l.takeWhile notOpenBrace = l := by
  induction l with
  | nil => rfl
  | cons a as ih =>
    have ha : a ≠ '\x7b' := by
      intro he
      exact h (by rw [he]; exact List.mem_cons_self _ _)
    simp [List.takeWhile_cons, notOpenBrace, ha,
      ih (fun hm => h (List.mem_cons_of_mem _ hm))]

theorem takeWhile_append_of_not_mem {l : List Char} (t : List Char)
    (h : '\x7b' ∉ l) :
    (l ++ '$' :: '\x7b' :: t).takeWhile notOpenBrace = l ++ ['$'] := by
  induction l with
  | nil => simp [List.takeWhile_cons, notOpenBrace]
  | cons a as ih =>
    have ha : a ≠ '\x7b' := by
      intro he
      exact h (by rw [he]; exact List.mem_cons_self _ _)
    simp [List.takeWhile_cons, notOpenBrace, ha,
      ih (fun hm => h (List.mem_cons_of_mem _ hm))]

theorem lastBrace_concat (l : List Char) (a : Char)
    (ha : notCloseBrace a = true) : lastBrace (l ++ [a]) = lastBrace l := by
  have hdw : (l ++ [a]).reverse.dropWhile notCloseBrace =
      l.reverse.dropWhile notCloseBrace := by
    simp [List.reverse_append, List.dropWhile_cons, ha]
  simp only [lastBrace, hdw]

theorem lastBrace_run_append (l t : List Char) :
    lastBrace ((l ++ '$' :: '\x7b' :: t).takeWhile notOpenBrace) =
      lastBrace (l.takeWhile notOpenBrace) := by
  by_cases h : '\x7b' ∈ l
  · rw [takeWhile_append_of_mem _ h]
  · rw [takeWhile_append_of_not_mem t h, takeWhile_all_of_not_mem h]
    exact lastBrace_concat l '$' (by decide)

theorem notOpenBrace_dollar : notOpenBrace '$' = true := by decide

theorem notOpenBrace_open : notOpenBrace '\x7b' = false := by decide

theorem notCloseBrace_dollar : notCloseBrace '$' = true := by decide

theorem isWordChar_dollar : isWordChar '$' = false := by decide

theorem matchGroup3_some_append {l g3 after : List Char} (t : List Char)
    (h : matchGroup3 l = some (g3, after)) :
    matchGroup3 (l ++ '$' :: '\x7b' :: t) =
      some (g3, after ++ '$' :: '\x7b' :: t) := by
  have hrun := lastBrace_run_append l t
  simp only [matchGroup3] at h ⊢
  cases hb : lastBrace (l.takeWhile notOpenBrace) with
  | some g =>
    simp only [hb, Option.some.injEq, Prod.mk.injEq] at h
    obtain ⟨hg, hafter⟩ := h
    have hle : g.length ≤ l.length :=
      le_trans (lastBrace_length hb) (List.takeWhile_sublist _).length_le
    subst hg
    subst hafter
    simp [hrun, hb, List.drop_append_of_le_length hle]
  | none =>
    simp only [hb] at h
    cases l with
    | nil =>
      simp only [Option.some.injEq, Prod.mk.injEq] at h
      obtain ⟨hg, hafter⟩ := h
      subst hg
      subst hafter
      simp [List.takeWhile_cons, notOpenBrace_dollar, notOpenBrace_open,
        lastBrace, List.dropWhile_cons, notCloseBrace_dollar,
        isWordChar_dollar]
    | cons c cs =>
      by_cases hw : isWordChar c
      · simp [hw] at h
      · simp [hw] at h
        obtain ⟨hg, hafter⟩ := h
        subst hg
        subst hafter
        simp only [List.cons_append] at hrun
        simp [hrun, hb, List.cons_append, hw]

theorem matchGroup3_none_append {l : List Char} (t : List Char)
    (h : matchGroup3 l = none) :
    matchGroup3 (l ++ '$' :: '\x7b' :: t) = none := by
  have hrun := lastBrace_run_append l t
  simp only [matchGroup3] at h ⊢
  cases hb : lastBrace (l.takeWhile notOpenBrace) with
  | some g => simp [hb] at h
  | none =>
    simp only [hb] at h
    cases l with
    | nil => simp at h
    | cons c cs =>
      by_cases hw : isWordChar c
      · simp only [List.cons_append] at hrun
        simp [hrun, hb, List.cons_append, hw]
      · simp [hw] at h

theorem headBrace_append (l1 t : List Char) :
    (if (l1 ++ '$' :: '\x7b' :: t).head? = some '\x7b'
      then (l1 ++ '$' :: '\x7b' :: t).tail
      else l1 ++ '$' :: '\x7b' :: t) =
    (if l1.head? = some '\x7b' then l1.tail else l1) ++ '$' :: '\x7b' :: t := by
  cases l1 with
  | nil => simp
  | cons b bs =>
    by_cases hb : b = '\x7b'
    · subst hb
      simp
    · simp [hb]

theorem tryMatch_some_append {l g3 after : List Char} {k : FCKind}
    (t : List Char) (h : tryMatch l = some (k, g3, after)) :
    tryMatch (l ++ '$' :: '\x7b' :: t) =
      some (k, g3, after ++ '$' :: '\x7b' :: t) := by
  cases l with
  | nil => simp [tryMatch] at h
  | cons a l1 =>
    simp only [tryMatch] at h
    by_cases ha : a = '$'
    · rw [if_pos ha] at h
      simp only [List.cons_append, tryMatch, if_pos ha, headBrace_append]
      cases hn : matchName (if l1.head? = some '\x7b' then l1.tail else l1) with
      | none => simp [hn] at h
      | some kl3 =>
        obtain ⟨k0, l3⟩ := kl3
        simp only [hn] at h
        simp only [matchName_append (('\x7b') :: t) hn]
        cases hg : matchGroup3 l3 with
        | none => simp [hg] at h
        | some p =>
          obtain ⟨g3a, aftera⟩ := p
          simp only [hg, Option.some.injEq, Prod.mk.injEq] at h
          obtain ⟨hk, hg3, hafter⟩ := h
          subst hk
          subst hg3
          subst hafter
          simp only [matchGroup3_some_append t hg]
    · rw [if_neg ha] at h
      cases h

theorem tryMatch_none_append {l : List Char} (t : List Char) (hl : l ≠ [])
    (h : tryMatch l = none) :
    tryMatch (l ++ '$' :: '\x7b' :: t) = none := by
  cases l with
  | nil => exact absurd rfl hl
  | cons a l1 =>
    simp only [tryMatch] at h
    by_cases ha : a = '$'
    · rw [if_pos ha] at h
      simp only [List.cons_append, tryMatch, if_pos ha, headBrace_append]
      cases hn : matchName (if l1.head? = some '\x7b' then l1.tail else l1) with
      | none => simp only [matchName_append_none (('\x7b') :: t) hn]
      | some kl3 =>
        obtain ⟨k0, l3⟩ := kl3
        simp only [hn] at h
        simp only [matchName_append (('\x7b') :: t) hn]
        cases hg : matchGroup3 l3 with
        | some p => simp [hg] at h
        | none => simp only [matchGroup3_none_append t hg]
    · simp only [List.cons_append, tryMatch, if_neg ha]

theorem scan_append_aux (t : List Char) :
    ∀ (n : Nat) (l : List Char), l.length ≤ n →
      scan (l ++ '$' :: '\x7b' :: t) =
        scan l ++ scan ('$' :: '\x7b' :: t) := by
  intro n
  induction n with
  | zero =>
    intro l h
    have hl : l = [] := List.eq_nil_of_length_eq_zero (Nat.le_zero.mp h)
    subst hl
    rw [List.nil_append, show scan ([] : List Char) = [] from rfl,
      List.nil_append]
  | succ n ih =>
    intro l h
    cases l with
    | nil =>
      rw [List.nil_append, show scan ([] : List Char) = [] from rfl,
        List.nil_append]
    | cons a l1 =>
      simp only [List.length_cons] at h
      cases hm : tryMatch (a :: l1) with
      | some m =>
        obtain ⟨k, g3, after⟩ := m
        have hlt : after.length < l1.length + 1 := by
          have := tryMatch_length hm
          simpa using this
        have hm2 : tryMatch (a :: (l1 ++ '$' :: '\x7b' :: t)) =
            some (k, g3, after ++ '$' :: '\x7b' :: t) :=
          tryMatch_some_append t hm
        rw [scan_cons_some hm, List.cons_append, scan_cons_some hm2,
          ih after (by omega), List.cons_append]
      | none =>
        have hm2 : tryMatch (a :: (l1 ++ '$' :: '\x7b' :: t)) = none :=
          tryMatch_none_append t (by simp) hm
        rw [scan_cons_none hm, List.cons_append, scan_cons_none hm2,
          ih l1 (by omega)]

theorem scan_append (t : List Char) (l : List Char) :
    scan (l ++ '$' :: '\x7b' :: t) = scan l ++ scan ('$' :: '\x7b' :: t) :=
  scan_append_aux t l.length l (le_refl _)

/-- Openness of the last macro of kind `k` in a match list, with a default
for the case of no match of that kind. -/
def lastOpenFrom (k : FCKind) (dflt : Bool)
    (ms : List (FCKind × List Char)) : Bool :=
  match (ms.filter (fun m => m.1 == k)).getLast? with
  | some m => isOpen m.2
  | none => dflt

/-- Whether the last macro of kind `k` occurring across the fragments (the
regex matches of each fragment, fragments in order) is an open form; false
when no fragment contains a macro of kind `k`. -/
def lastMacroOpen (k : FCKind) (parts : List (List Char)) : Bool :=
  lastOpenFrom k false (parts.flatMap scan)

theorem lastOpenFrom_concat (k : FCKind) (dflt : Bool)
    (ms : List (FCKind × List Char)) (m : FCKind × List Char) :
    lastOpenFrom k dflt (ms ++ [m]) =
      if m.1 == k then isOpen m.2 else lastOpenFrom k dflt ms := by
  by_cases hk : m.1 == k
  · simp [lastOpenFrom, List.filter_append, hk, List.getLast?_concat]
  · simp [lastOpenFrom, List.filter_append, hk]

theorem foldl_updFlags_eq (ms : List (FCKind × List Char)) (st : Bool × Bool) :
    ms.foldl updFlags st =
      (lastOpenFrom FCKind.color st.1 ms, lastOpenFrom FCKind.font st.2 ms) := by
  induction ms using List.reverseRecOn with
  | nil => simp [lastOpenFrom]
  | append_singleton ms m ih =>
    obtain ⟨k0, g3⟩ := m
    cases k0 <;>
      simp [List.foldl_append, ih, updFlags, lastOpenFrom_concat]

theorem lineFlags_eq (parts : List (List Char)) :
    lineFlags parts = (parts.flatMap scan).foldl updFlags (false, false) := by
  suffices H : ∀ (l : List (List Char)) (init : Bool × Bool),
      l.foldl (fun st part => (scan part).foldl updFlags st) init =
        (l.flatMap scan).foldl updFlags init from H parts (false, false)
  intro l
  induction l with
  | nil => intro init; rfl
  | cons x xs ih =>
    intro init
    simp only [List.foldl_cons, List.flatMap_cons, List.foldl_append]
    exact ih _

/-- C1 (confirmed): `line(fragments)` returns the concatenation of the
fragments, followed by the close-color macro exactly when the last color
macro occurring across the fragments is an open form (group 3 neither empty
nor a bare close brace), then the close-font macro exactly when the last
font macro across the fragments is an open form; when no fragment leaves a
color (resp. font) open, no close-color (resp. close-font) macro is
appended. -/
theorem c1_line_closes (parts : List (List Char)) :
    line parts = parts.flatten ++
      (if lastMacroOpen FCKind.color parts then closeColor else []) ++
      (if lastMacroOpen FCKind.font parts then closeFont else []) := by
  simp only [line, lineFlags_eq, foldl_updFlags_eq, lastMacroOpen]
  have key : ∀ (c f : Bool),
      ((parts ++ if c then [closeColor] else []) ++
          if f then [closeFont] else []).flatten =
        (parts.flatten ++ if c then closeColor else []) ++
          if f then closeFont else [] := by
    intro c f
    cases c <;> cases f <;> simp [List.flatten_append]
  exact key _ _

/-- C7 (counterexample): `line` is not idempotent on fragment sequences: a
color macro split across two fragments is not recognized during the first
pass (so no close macro is appended), but the reassembled output fed back
as a single fragment contains a complete open macro, so a second pass
appends a close-color macro and the string changes. -/
theorem c7_line_not_idempotent :
    line [line [("$\x7bcolor").toList, (" #ff0000\x7d").toList]] ≠
      line [("$\x7bcolor").toList, (" #ff0000\x7d").toList] ∧
    line [("$\x7bcolor").toList, (" #ff0000\x7d").toList] =
      ("$\x7bcolor #ff0000\x7d").toList ∧
    line [("$\x7bcolor #ff0000\x7d").toList] =
      ("$\x7bcolor #ff0000\x7d$\x7bcolor\x7d").toList := by
  refine ⟨by decide, by decide, by decide⟩

theorem line_single (s : List Char) :
    line [s] = s ++
      (if ((scan s).foldl updFlags (false, false)).1 then closeColor else []) ++
      (if ((scan s).foldl updFlags (false, false)).2 then closeFont else []) := by
  have hlf : lineFlags [s] = (scan s).foldl updFlags (false, false) := rfl
  simp only [line, hlf]
  cases ((scan s).foldl updFlags (false, false)).1 <;>
    cases ((scan s).foldl updFlags (false, false)).2 <;>
      simp [List.flatten_append]

theorem scan_closeColor : scan closeColor = [(FCKind.color, ['\x7d'])] := by
  decide

theorem scan_closeFont : scan closeFont = [(FCKind.font, ['\x7d'])] := by
  decide

theorem scan_append_closeColor (s : List Char) :
    scan (s ++ closeColor) = scan s ++ [(FCKind.color, ['\x7d'])] := by
  have h : scan (s ++ closeColor) = scan s ++ scan closeColor :=
    scan_append (("color\x7d").toList) s
  rw [h, scan_closeColor]

theorem scan_append_closeFont (s : List Char) :
    scan (s ++ closeFont) = scan s ++ [(FCKind.font, ['\x7d'])] := by
  have h : scan (s ++ closeFont) = scan s ++ scan closeFont :=
    scan_append (("font\x7d").toList) s
  rw [h, scan_closeFont]

/-- C7 (amended): `line` applied to one single fragment produces a fixed
point: feeding the output back as the sole fragment of a fresh `line` call
reproduces the same string, because the appended close macros are
themselves recognized as close forms.  (For fragment sequences where a
macro straddles a fragment boundary, the counterexample shows idempotence
fails.) -/
theorem c7_line_single_fixed_point (s : List Char) :
    line [line [s]] = line [s] := by
  rcases hF : (scan s).foldl updFlags (false, false) with ⟨b1, b2⟩
  cases b1 <;> cases b2
  · have h1 : line [s] = s := by
      rw [line_single, hF]
      simp
    rw [h1]
    exact h1
  · have h1 : line [s] = s ++ closeFont := by
      rw [line_single, hF]
      simp
    have h2 : line [s ++ closeFont] = s ++ closeFont := by
      rw [line_single, scan_append_closeFont, List.foldl_append, hF]
      simp [updFlags, isOpen]
    rw [h1]
    exact h2
  · have h1 : line [s] = s ++ closeColor := by
      rw [line_single, hF]
      simp
    have h2 : line [s ++ closeColor] = s ++ closeColor := by
      rw [line_single, scan_append_closeColor, List.foldl_append, hF]
      simp [updFlags, isOpen]
    rw [h1]
    exact h2
  · have h1 : line [s] = s ++ closeColor ++ closeFont := by
      rw [line_single, hF]
      simp
    have h2 : line [s ++ closeColor ++ closeFont] =
        s ++ closeColor ++ closeFont := by
      have hsc : scan (s ++ closeColor ++ closeFont) =
          scan s ++ [(FCKind.color, ['\x7d'])] ++ [(FCKind.font, ['\x7d'])] := by
        rw [scan_append_closeFont, scan_append_closeColor]
      rw [line_single, hsc, List.foldl_append, List.foldl_append, hF]
      simp [updFlags, isOpen]
    rw [h1]
    exact h2

/-! Behaviour of `block` and of sequences of `block` calls. -/

theorem block_ok (p : ConkyFormatterParameters) (buf : List (List Char))
    (lines : List LinesTree) (heading : Option (List Char))
    (voff : Option Int) (h : renderNew p lines heading ≠ []) :
    block p buf lines heading voff =
      Except.ok ((if buf = [] then buf else buf ++ [[]]) ++
        renderBlock p ⟨lines, heading, voff⟩) := by
  cases hrn : renderNew p lines heading with
  | nil => exact absurd hrn h
  | cons a as =>
    simp only [block, renderBlock, hrn]
    cases hv : intTruthy voff
    · simp
    · have hget : ((if buf = [] then buf else buf ++ [[]]) ++ a :: as).get?
          (if buf = [] then buf else buf ++ [[]]).length = some a := by
        rw [List.get?_append_right (le_refl _)]
        simp
      simp only [hget]
      simp [List.set_append, List.modifyHead]

theorem renderBlock_ne_nil {p : ConkyFormatterParameters} {c : BlockCall}
    (h : renderNew p c.lines c.heading ≠ []) : renderBlock p c ≠ [] := by
  unfold renderBlock
  cases hrn : renderNew p c.lines c.heading with
  | nil => exact absurd hrn h
  | cons a as => cases intTruthy c.vertical_offset <;> simp

theorem applyBlocks_nonempty (p : ConkyFormatterParameters) :
    ∀ (calls : List BlockCall) (buf : List (List Char)), buf ≠ [] →
      (∀ c ∈ calls, renderNew p c.lines c.heading ≠ []) →
      applyBlocks p buf calls =
        Except.ok (buf ++ calls.flatMap (fun c => [[]] ++ renderBlock p c)) := by
  intro calls
  induction calls with
  | nil =>
    intro buf hb _
    simp [applyBlocks]
  | cons c cs ih =>
    intro buf hb hall
    have hc := hall c (List.mem_cons_self c cs)
    have heta : (⟨c.lines, c.heading, c.vertical_offset⟩ : BlockCall) = c := rfl
    simp only [applyBlocks,
      block_ok p buf c.lines c.heading c.vertical_offset hc, heta, if_neg hb]
    rw [ih (buf ++ [[]] ++ renderBlock p c) (by simp)
      (fun c2 hc2 => hall c2 (List.mem_cons_of_mem c hc2))]
    simp [List.append_assoc]

theorem intercalate_cons_flatMap {α : Type} (sep : List α) :
    ∀ (xs : List (List α)) (x : List α),
      List.intercalate sep (x :: xs) =
        x ++ xs.flatMap (fun g => sep ++ g) := by
  intro xs
  induction xs with
  | nil =>
    intro x
    simp [List.intercalate]
  | cons y ys ih =>
    intro x
    simp only [List.intercalate]
    rw [List.intersperse_cons_cons]
    simp only [List.flatten_cons]
    rw [show (List.intersperse sep (y :: ys)).flatten =
      List.intercalate sep (y :: ys) from rfl, ih y]
    simp [List.append_assoc]

/-- C6 (confirmed): across any sequence of block calls on one formatter,
each contributing at least one line, the final buffer is the rendered
blocks joined with exactly one blank-line entry between consecutive blocks
and no blank line before the first (a block call on an empty buffer adds no
separator). -/
theorem c6_block_separators (p : ConkyFormatterParameters)
    (calls : List BlockCall)
    (h : ∀ c ∈ calls, renderNew p c.lines c.heading ≠ []) :
    applyBlocks p [] calls =
      Except.ok (List.intercalate [[]] (calls.map (renderBlock p))) := by
  cases calls with
  | nil => simp [applyBlocks, List.intercalate]
  | cons c cs =>
    have hc := h c (List.mem_cons_self c cs)
    have heta : (⟨c.lines, c.heading, c.vertical_offset⟩ : BlockCall) = c := rfl
    simp only [applyBlocks,
      block_ok p [] c.lines c.heading c.vertical_offset hc, heta, if_true,
      List.nil_append]
    rw [applyBlocks_nonempty p cs (renderBlock p c) (renderBlock_ne_nil hc)
      (fun c2 hc2 => h c2 (List.mem_cons_of_mem c hc2))]
    rw [List.map_cons, intercalate_cons_flatMap [[]] (cs.map (renderBlock p))
      (renderBlock p c)]
    rw [List.flatMap_map]

/-- C6 (witness): two single-line blocks applied to an empty buffer. -/
theorem c6_block_separators_witness :
    (∀ c ∈ [(⟨[LinesTree.leaf (("alpha").toList)], none, none⟩ : BlockCall),
        ⟨[LinesTree.leaf (("beta").toList)], none, none⟩],
      renderNew defaultParameters c.lines c.heading ≠ []) ∧
    applyBlocks defaultParameters []
        [(⟨[LinesTree.leaf (("alpha").toList)], none, none⟩ : BlockCall),
          ⟨[LinesTree.leaf (("beta").toList)], none, none⟩] =
      Except.ok (List.intercalate [[]]
        ([(⟨[LinesTree.leaf (("alpha").toList)], none, none⟩ : BlockCall),
          ⟨[LinesTree.leaf (("beta").toList)], none, none⟩].map
            (renderBlock defaultParameters))) :=
  ⟨by decide, c6_block_separators defaultParameters
    [⟨[LinesTree.leaf (("alpha").toList)], none, none⟩,
      ⟨[LinesTree.leaf (("beta").toList)], none, none⟩] (by decide)⟩

/-- C9 (confirmed): a block call with a truthy vertical offset prefixes the
vertical-offset macro onto the first line the block emits (not a line of
its own) when the block produces at least one line; when the block produces
no lines at all (no heading and no flattened fragments) the call fails with
an index-out-of-range error instead of returning normally. -/
theorem c9_block_vertical_offset :
    (∀ (p : ConkyFormatterParameters) (buf : List (List Char))
        (lines : List LinesTree) (heading : Option (List Char))
        (voff : Option Int), intTruthy voff = true →
      renderNew p lines heading ≠ [] →
      block p buf lines heading voff =
        Except.ok ((if buf = [] then buf else buf ++ [[]]) ++
          (renderNew p lines heading).modifyHead
            (fun l0 => offset none voff ++ l0))) ∧
    (∀ (p : ConkyFormatterParameters) (buf : List (List Char))
        (lines : List LinesTree) (voff : Option Int),
      intTruthy voff = true → flattenList lines = [] →
      block p buf lines none voff = Except.error ()) := by
  constructor
  · intro p buf lines heading voff hv h
    rw [block_ok p buf lines heading voff h]
    simp [renderBlock, hv]
  · intro p buf lines voff hv hfl
    have hrn : renderNew p lines none = [] := by simp [renderNew, hfl]
    simp [block, hrn, hv]

/-- C9 (witness): one single-line block gets the vertical-offset prefix on
its first line; an empty block with a truthy vertical offset fails. -/
theorem c9_block_vertical_offset_witness :
    intTruthy (some 5) = true ∧
    renderNew defaultParameters [LinesTree.leaf (("hi").toList)] none ≠ [] ∧
    block defaultParameters [] [LinesTree.leaf (("hi").toList)] none
        (some 5) =
      Except.ok ((if ([] : List (List Char)) = [] then [] else [] ++ [[]]) ++
        (renderNew defaultParameters [LinesTree.leaf (("hi").toList)]
            none).modifyHead (fun l0 => offset none (some 5) ++ l0)) ∧
    flattenList ([] : List LinesTree) = [] ∧
    block defaultParameters [] [] none (some 5) = Except.error () :=
  ⟨by decide, by decide,
    c9_block_vertical_offset.1 defaultParameters [] [LinesTree.leaf
      (("hi").toList)] none (some 5) (by decide) (by decide),
    rfl,
    c9_block_vertical_offset.2 defaultParameters [] [] (some 5) (by decide)
      rfl⟩

/-- C3 (counterexample): `exec('uptime', interval=0)` yields the throttled
macro with interval 0, not the always-run macro, and `exec('uptime')` with
the interval omitted yields the always-run macro, not a throttled macro
with the default interval 3600 — both contrary to the claim. -/
theorem c3_exec_counterexample :
    exec (("uptime").toList) (some 0) ≠ ("$\x7bexec uptime\x7d").toList ∧
    exec (("uptime").toList) none ≠ ("$\x7bexeci 3600 uptime\x7d").toList ∧
    exec (("uptime").toList) (some 0) = ("$\x7bexeci 0 uptime\x7d").toList ∧
    exec (("uptime").toList) none = ("$\x7bexec uptime\x7d").toList := by
  refine ⟨by decide, by decide, by decide, by decide⟩

/-- C3 (amended): `exec(command)` with the interval omitted returns the
always-run macro; `exec(command, interval=n)` for any provided interval,
including 0, returns the throttled macro with that interval; no default
interval is ever substituted. -/
theorem c3_exec_forms :
    (∀ cmd : List Char,
      exec cmd none = ("$\x7bexec ").toList ++ cmd ++ ['\x7d']) ∧
    (∀ (cmd : List Char) (n : Int),
      exec cmd (some n) =
        ("$\x7bexeci ").toList ++ intStr n ++ [' '] ++ cmd ++ ['\x7d']) ∧
    exec (("uptime").toList) (some 0) = ("$\x7bexeci 0 uptime\x7d").toList := by
  refine ⟨fun cmd => rfl, fun cmd n => rfl, by decide⟩

/-- C4 (counterexample): `meter` has no `graph_color1`/`border_color`
arguments; its single color argument fills both graph-color slots, and the
border-color macro from the `color_graph_border` parameter is always
prefixed.  At the claim's scenario (default parameters), the output differs
from the claimed string. -/
theorem c4_meter_counterexample :
    meter defaultParameters (("cpugraph").toList) (("ff0000").toList) 100 25
        (some (("cpu0").toList)) ≠
      ("$\x7bcpugraph cpu0 25,100 ff0000\x7d").toList ∧
    meter defaultParameters (("cpugraph").toList) (("ff0000").toList) 100 25
        (some (("cpu0").toList)) =
      ("$\x7bcolor #808080\x7d$\x7bcpugraph cpu0 25,100 ff0000 ff0000\x7d").toList := by
  refine ⟨by decide, by decide⟩

/-- C4 (amended): `meter` always prefixes the border-color macro built from
the `color_graph_border` parameter, then emits the graph macro
`type[ param] height,width color color` with the single color argument used
for both graph colors. -/
theorem c4_meter_forms :
    (∀ (p : ConkyFormatterParameters) (ty c : List Char) (w h : Int)
        (pm : List Char), pm ≠ [] →
      meter p ty c w h (some pm) =
        color (some (ColorArg.str (pyStr p.color_graph_border))) ++
          ("$\x7b").toList ++ ty ++ ' ' :: pm ++ [' '] ++ intStr h ++ [','] ++
          intStr w ++ [' '] ++ c ++ [' '] ++ c ++ ['\x7d']) ∧
    (∀ (p : ConkyFormatterParameters) (ty c : List Char) (w h : Int),
      meter p ty c w h none =
        color (some (ColorArg.str (pyStr p.color_graph_border))) ++
          ("$\x7b").toList ++ ty ++ [' '] ++ intStr h ++ [','] ++
          intStr w ++ [' '] ++ c ++ [' '] ++ c ++ ['\x7d']) := by
  constructor
  · intro p ty c w h pm hpm
    simp [meter, color, optPart, hpm]
  · intro p ty c w h
    simp [meter, color, optPart]

/-- C4 (witness): the amended `meter` form instantiated at the claim's
scenario inputs. -/
theorem c4_meter_forms_witness :
    (("cpu0").toList ≠ []) ∧
    meter defaultParameters (("cpugraph").toList) (("ff0000").toList) 100 25
        (some (("cpu0").toList)) =
      color (some (ColorArg.str (pyStr defaultParameters.color_graph_border))) ++
        ("$\x7b").toList ++ ("cpugraph").toList ++ ' ' :: (("cpu0").toList) ++
        [' '] ++ intStr 25 ++ [','] ++ intStr 100 ++ [' '] ++
        ("ff0000").toList ++ [' '] ++ ("ff0000").toList ++ ['\x7d'] :=
  ⟨by decide, c4_meter_forms.1 defaultParameters (("cpugraph").toList)
    (("ff0000").toList) 100 25 (("cpu0").toList) (by decide)⟩

/-- C8 (confirmed): `bar` emits `type height,width[ param]` prefixed by the
color-set macro built from the color argument; in particular
`bar('membar', width=100, height=10, color='00ff00')` returns exactly
`${color #00ff00}${membar 10,100}`, and the optional parameter is appended
after a space only when present. -/
theorem c8_bar_forms :
    bar (("membar").toList) (("00ff00").toList) 100 10 none =
      ("$\x7bcolor #00ff00\x7d$\x7bmembar 10,100\x7d").toList ∧
    (∀ (ty c : List Char) (w h : Int) (pm : List Char), pm ≠ [] →
      bar ty c w h (some pm) =
        color (some (ColorArg.str c)) ++ ("$\x7b").toList ++ ty ++ [' '] ++
          intStr h ++ [','] ++ intStr w ++ ' ' :: pm ++ ['\x7d']) ∧
    (∀ (ty c : List Char) (w h : Int),
      bar ty c w h none =
        color (some (ColorArg.str c)) ++ ("$\x7b").toList ++ ty ++ [' '] ++
          intStr h ++ [','] ++ intStr w ++ ['\x7d']) := by
  refine ⟨by decide, ?_, ?_⟩
  · intro ty c w h pm hpm
    simp [bar, color, optPart, hpm]
  · intro ty c w h
    simp [bar, color, optPart]

/-- C8 (witness): the parameterized `bar` form instantiated at concrete
inputs. -/
theorem c8_bar_forms_witness :
    (("/home").toList ≠ []) ∧
    bar (("fs_bar").toList) (("00ff00").toList) 100 10
        (some (("/home").toList)) =
      color (some (ColorArg.str (("00ff00").toList))) ++ ("$\x7b").toList ++
        ("fs_bar").toList ++ [' '] ++ intStr 10 ++ [','] ++ intStr 100 ++
        ' ' :: (("/home").toList) ++ ['\x7d'] :=
  ⟨by decide, c8_bar_forms.2.1 (("fs_bar").toList) (("00ff00").toList) 100 10
    (("/home").toList) (by decide)⟩

/-- C5 (confirmed): `set_parameters` replaces exactly the fields the
override record provides, for every field and every partial override
record: any field the override leaves absent keeps its live value, and any
field the override provides takes the provided value.  In particular the
all-absent override leaves every live field unchanged, and an override with
a single field set changes only that field. -/
theorem c5_set_parameters_merge :
    (∀ live : ConkyFormatterParameters,
      set_parameters live blankParameters = live) ∧
    (∀ live p : ConkyFormatterParameters,
      ((p.placement = none →
          (set_parameters live p).placement = live.placement) ∧
        (∀ v, p.placement = some v →
          (set_parameters live p).placement = some v)) ∧
      ((p.color_default = none →
          (set_parameters live p).color_default = live.color_default) ∧
        (∀ v, p.color_default = some v →
          (set_parameters live p).color_default = some v)) ∧
      ((p.color_outline = none →
          (set_parameters live p).color_outline = live.color_outline) ∧
        (∀ v, p.color_outline = some v →
          (set_parameters live p).color_outline = some v)) ∧
      ((p.color_graph_border = none →
          (set_parameters live p).color_graph_border = live.color_graph_border) ∧
        (∀ v, p.color_graph_border = some v →
          (set_parameters live p).color_graph_border = some v)) ∧
      ((p.color_heading = none →
          (set_parameters live p).color_heading = live.color_heading) ∧
        (∀ v, p.color_heading = some v →
          (set_parameters live p).color_heading = some v)) ∧
      ((p.color_label = none →
          (set_parameters live p).color_label = live.color_label) ∧
        (∀ v, p.color_label = some v →
          (set_parameters live p).color_label = some v)) ∧
      ((p.color_data = none →
          (set_parameters live p).color_data = live.color_data) ∧
        (∀ v, p.color_data = some v →
          (set_parameters live p).color_data = some v)) ∧
      ((p.color_time = none →
          (set_parameters live p).color_time = live.color_time) ∧
        (∀ v, p.color_time = some v →
          (set_parameters live p).color_time = some v)) ∧
      ((p.color_date = none →
          (set_parameters live p).color_date = live.color_date) ∧
        (∀ v, p.color_date = some v →
          (set_parameters live p).color_date = some v)) ∧
      ((p.color_cpu = none →
          (set_parameters live p).color_cpu = live.color_cpu) ∧
        (∀ v, p.color_cpu = some v →
          (set_parameters live p).color_cpu = some v)) ∧
      ((p.color_memory = none →
          (set_parameters live p).color_memory = live.color_memory) ∧
        (∀ v, p.color_memory = some v →
          (set_parameters live p).color_memory = some v)) ∧
      ((p.color_filesystem = none →
          (set_parameters live p).color_filesystem = live.color_filesystem) ∧
        (∀ v, p.color_filesystem = some v →
          (set_parameters live p).color_filesystem = some v)) ∧
      ((p.font_default = none →
          (set_parameters live p).font_default = live.font_default) ∧
        (∀ v, p.font_default = some v →
          (set_parameters live p).font_default = some v)) ∧
      ((p.font_heading = none →
          (set_parameters live p).font_heading = live.font_heading) ∧
        (∀ v, p.font_heading = some v →
          (set_parameters live p).font_heading = some v)) ∧
      ((p.font_label = none →
          (set_parameters live p).font_label = live.font_label) ∧
        (∀ v, p.font_label = some v →
          (set_parameters live p).font_label = some v)) ∧
      ((p.font_data = none →
          (set_parameters live p).font_data = live.font_data) ∧
        (∀ v, p.font_data = some v →
          (set_parameters live p).font_data = some v)) ∧
      ((p.font_time = none →
          (set_parameters live p).font_time = live.font_time) ∧
        (∀ v, p.font_time = some v →
          (set_parameters live p).font_time = some v)) ∧
      ((p.font_date = none →
          (set_parameters live p).font_date = live.font_date) ∧
        (∀ v, p.font_date = some v →
          (set_parameters live p).font_date = some v)) ∧
      ((p.format_time = none →
          (set_parameters live p).format_time = live.format_time) ∧
        (∀ v, p.format_time = some v →
          (set_parameters live p).format_time = some v)) ∧
      ((p.format_date = none →
          (set_parameters live p).format_date = live.format_date) ∧
        (∀ v, p.format_date = some v →
          (set_parameters live p).format_date = some v)) ∧
      ((p.meter_width = none →
          (set_parameters live p).meter_width = live.meter_width) ∧
        (∀ v, p.meter_width = some v →
          (set_parameters live p).meter_width = some v)) ∧
      ((p.meter_height = none →
          (set_parameters live p).meter_height = live.meter_height) ∧
        (∀ v, p.meter_height = some v →
          (set_parameters live p).meter_height = some v)) ∧
      ((p.bar_width = none →
          (set_parameters live p).bar_width = live.bar_width) ∧
        (∀ v, p.bar_width = some v →
          (set_parameters live p).bar_width = some v)) ∧
      ((p.bar_height = none →
          (set_parameters live p).bar_height = live.bar_height) ∧
        (∀ v, p.bar_height = some v →
          (set_parameters live p).bar_height = some v)) ∧
      ((p.interval_refresh = none →
          (set_parameters live p).interval_refresh = live.interval_refresh) ∧
        (∀ v, p.interval_refresh = some v →
          (set_parameters live p).interval_refresh = some v)) ∧
      ((p.interval_network_check = none →
          (set_parameters live p).interval_network_check = live.interval_network_check) ∧
        (∀ v, p.interval_network_check = some v →
          (set_parameters live p).interval_network_check = some v)) ∧
      ((p.interval_temperature_check = none →
          (set_parameters live p).interval_temperature_check = live.interval_temperature_check) ∧
        (∀ v, p.interval_temperature_check = some v →
          (set_parameters live p).interval_temperature_check = some v)) ∧
      ((p.window_width_min = none →
          (set_parameters live p).window_width_min = live.window_width_min) ∧
        (∀ v, p.window_width_min = some v →
          (set_parameters live p).window_width_min = some v)) ∧
      ((p.window_height_min = none →
          (set_parameters live p).window_height_min = live.window_height_min) ∧
        (∀ v, p.window_height_min = some v →
          (set_parameters live p).window_height_min = some v)) ∧
      ((p.window_outer_margin = none →
          (set_parameters live p).window_outer_margin = live.window_outer_margin) ∧
        (∀ v, p.window_outer_margin = some v →
          (set_parameters live p).window_outer_margin = some v)) ∧
      ((p.window_gap = none →
          (set_parameters live p).window_gap = live.window_gap) ∧
        (∀ v, p.window_gap = some v →
          (set_parameters live p).window_gap = some v))) := by
  constructor
  · intro live
    rfl
  · intro live p
    refine ⟨⟨?_, ?_⟩, ⟨?_, ?_⟩, ⟨?_, ?_⟩, ⟨?_, ?_⟩, ⟨?_, ?_⟩, ⟨?_, ?_⟩, ⟨?_, ?_⟩, ⟨?_, ?_⟩, ⟨?_, ?_⟩, ⟨?_, ?_⟩, ⟨?_, ?_⟩, ⟨?_, ?_⟩, ⟨?_, ?_⟩, ⟨?_, ?_⟩, ⟨?_, ?_⟩, ⟨?_, ?_⟩, ⟨?_, ?_⟩, ⟨?_, ?_⟩, ⟨?_, ?_⟩, ⟨?_, ?_⟩, ⟨?_, ?_⟩, ⟨?_, ?_⟩, ⟨?_, ?_⟩, ⟨?_, ?_⟩, ⟨?_, ?_⟩, ⟨?_, ?_⟩, ⟨?_, ?_⟩, ⟨?_, ?_⟩, ⟨?_, ?_⟩, ⟨?_, ?_⟩, ⟨?_, ?_⟩⟩
    all_goals first
      | (intro h
         simp only [set_parameters, updField, h])
      | (intro v h
         simp only [set_parameters, updField, h])

/-- Sample two-field override record (one string field, one integer
field), all other fields absent. -/
def overrideSample : ConkyFormatterParameters :=
  { blankParameters with
      placement := some (("bottom_right").toList)
      meter_width := some 77 }

/-- C5 (witness): the two-field override applied to the default record: the
provided `placement` is replaced and the absent `color_default` is
untouched. -/
theorem c5_set_parameters_merge_witness :
    overrideSample.placement = some (("bottom_right").toList) ∧
    overrideSample.color_default = none ∧
    (set_parameters defaultParameters overrideSample).placement =
      some (("bottom_right").toList) ∧
    (set_parameters defaultParameters overrideSample).color_default =
      defaultParameters.color_default :=
  ⟨rfl, rfl,
    (c5_set_parameters_merge.2 defaultParameters overrideSample).1.2
      (("bottom_right").toList) rfl,
    (c5_set_parameters_merge.2 defaultParameters overrideSample).2.1.1 rfl⟩

/-- C2 (counterexample): looking up the absent key `geometry` in an empty
wrapped mapping yields `None`, not an empty wrapped mapping, and the
chained access `params.geometry.width_min` therefore raises AttributeError
instead of succeeding. -/
theorem c2_absent_counterexample :
    configGetAttr [] (("geometry").toList) = CValue.null ∧
    CValue.null ≠ CValue.dict [] ∧
    chainGetAttr (configGetAttr [] (("geometry").toList))
        (("width_min").toList) =
      Except.error (("AttributeError").toList) :=
  ⟨rfl, fun h => CValue.noConfusion h, rfl⟩

/-- C2 (amended): `get(key)`, attribute-style and index-style access on a
wrapped mapping return `None` (the unwrapped null) for an absent key — the
single lookup itself never raises, but chained access through a missing
branch fails with AttributeError rather than degrading to an empty
mapping. -/
theorem c2_absent_key (entries : List (List Char × CValue))
    (name : List Char) (h : entries.lookup name = none) :
    configGetAttr entries name = CValue.null ∧
    configGetItem entries name = CValue.null ∧
    ∀ attr : List Char,
      chainGetAttr (configGetAttr entries name) attr =
        Except.error (("AttributeError").toList) := by
  refine ⟨?_, ?_, ?_⟩ <;> simp [configGetAttr, configGetItem, h, wrap_data,
    chainGetAttr]

/-- C2 (witness): the amended absent-key behaviour at concrete inputs. -/
theorem c2_absent_key_witness :
    ([] : List (List Char × CValue)).lookup (("geometry").toList) = none ∧
    configGetAttr [] (("geometry").toList) = CValue.null ∧
    configGetItem [] (("geometry").toList) = CValue.null :=
  ⟨rfl, (c2_absent_key [] (("geometry").toList) rfl).1,
    (c2_absent_key [] (("geometry").toList) rfl).2.1⟩

/-- C10 (confirmed): every primitive formatting operation returns the
formatter state unchanged (line buffer and parameter record identical);
`block` leaves the parameter record as it was, and `set_parameters` leaves
the line buffer as it was. -/
theorem c10_frame_effects :
    (∀ st v, (textOp st v).1 = st) ∧
    (∀ st spec, (colorOp st spec).1 = st) ∧
    (∀ st spec, (fontOp st spec).1 = st) ∧
    (∀ st, (centerOp st).1 = st) ∧
    (∀ st, (rightOp st).1 = st) ∧
    (∀ st f, (timeOp st f).1 = st) ∧
    (∀ st, (horizontalRuleOp st).1 = st) ∧
    (∀ st x y, (offsetOp st x y).1 = st) ∧
    (∀ st c i, (execOp st c i).1 = st) ∧
    (∀ st ty c w h pm, (barOp st ty c w h pm).1 = st) ∧
    (∀ st ty c w h pm, (meterOp st ty c w h pm).1 = st) ∧
    (∀ st, (hostNameOp st).1 = st) ∧
    (∀ st, (kernelOp st).1 = st) ∧
    (∀ st s, (uptimeOp st s).1 = st) ∧
    (∀ st d, (ipAddressOp st d).1 = st) ∧
    (∀ st d, (macAddressOp st d).1 = st) ∧
    (∀ home st, (externalIpOp home st).1 = st) ∧
    (∀ st n, (cpuPercentOp st n).1 = st) ∧
    (∀ st n, (cpuTemperatureOp st n).1 = st) ∧
    (∀ st, (cpuFrequencyOp st).1 = st) ∧
    (∀ st n, (cpuTopNameOp st n).1 = st) ∧
    (∀ st n, (cpuTopPercentOp st n).1 = st) ∧
    (∀ st n, (cpuMeterOp st n).1 = st) ∧
    (∀ st, (memoryUsageOp st).1 = st) ∧
    (∀ st n, (memoryTopNameOp st n).1 = st) ∧
    (∀ st n, (memoryTopPercentOp st n).1 = st) ∧
    (∀ st, (memoryBarOp st).1 = st) ∧
    (∀ st, (swapUsageOp st).1 = st) ∧
    (∀ st m, (filesystemUsageOp st m).1 = st) ∧
    (∀ st m, (filesystemIoOp st m).1 = st) ∧
    (∀ st m, (filesystemBarOp st m).1 = st) ∧
    (∀ st d, (filesystemIoMeterOp st d).1 = st) ∧
    (∀ st parts, (lineOp st parts).1 = st) ∧
    (∀ st, (timeLineOp st).1 = st) ∧
    (∀ st, (dateLineOp st).1 = st) ∧
    (∀ st h, (headingLineOp st h).1 = st) ∧
    (∀ st n v, (nameValueLineOp st n v).1 = st) ∧
    (∀ st a b, (pairLineOp st a b).1 = st) ∧
    (∀ st a b c, (tripletLineOp st a b c).1 = st) ∧
    (∀ st i, (centeredLineOp st i).1 = st) ∧
    (∀ st lines heading voff,
      (blockOp st lines heading voff).map (fun s2 => s2.parameters) =
        (block st.parameters st.conky_text_lines lines heading voff).map
          (fun _ => st.parameters)) ∧
    (∀ st p, (setParametersOp st p).conky_text_lines =
      st.conky_text_lines) := by
  refine ⟨fun _ _ => rfl, fun _ _ => rfl, fun _ _ => rfl, fun _ => rfl,
    fun _ => rfl, fun _ _ => rfl, fun _ => rfl, fun _ _ _ => rfl,
    fun _ _ _ => rfl, fun _ _ _ _ _ _ => rfl, fun _ _ _ _ _ _ => rfl,
    fun _ => rfl, fun _ => rfl, fun _ _ => rfl, fun _ _ => rfl,
    fun _ _ => rfl, fun _ _ => rfl, fun _ _ => rfl, fun _ _ => rfl,
    fun _ => rfl, fun _ _ => rfl, fun _ _ => rfl, fun _ _ => rfl,
    fun _ => rfl, fun _ _ => rfl, fun _ _ => rfl, fun _ => rfl,
    fun _ => rfl, fun _ _ => rfl, fun _ _ => rfl, fun _ _ => rfl,
    fun _ _ => rfl, fun _ _ => rfl, fun _ => rfl, fun _ => rfl,
    fun _ _ => rfl, fun _ _ _ => rfl, fun _ _ _ => rfl,
    fun _ _ _ _ => rfl, fun _ _ => rfl, ?_, fun _ _ => rfl⟩
  intro st lines heading voff
  simp only [blockOp]
  cases block st.parameters st.conky_text_lines lines heading voff <;> rfl

end ConkyMaker
